import Mathlib

/-!
Shallow embedding of the tiny-wasm-runtime execution engine
(`src/execution/{value,store,runtime,wasi}.rs` and the parts of
`src/binary` it consumes), together with theorems checking the
specification's claims against it.

Conventions of the embedding:
* Rust `i32`/`i64` are `Int` with explicit two's-complement wrapping
  (`wrap32`/`wrap64`) where the source wraps; `u32`/`usize` are `Nat`.
* Rust `as usize` casts from signed integers are `intToUsize` (the value
  modulo `2 ^ 64`, as on a 64-bit host).
* Fallible code returns `Except RtErr`; `RtErr.err` is an `anyhow` error
  (`bail!` / `ok_or`), `RtErr.panic` is a Rust panic (slice index out of
  range, integer overflow under the default debug/test profile, or an
  explicit `panic!`/`unimplemented!`).  A panic aborts the process, so no
  cleanup code observes it.
* Rust `Vec` used as a stack (operand stack, call stack, label stack) is a
  `List` with the top at the head.  `Vec::split_off(len - n)` hands the top
  `n` elements to the callee in bottom-to-top order, hence `take n` followed
  by `reverse`.
* Host file handles (WASI) are modelled by the sequence of bytes written to
  them; `File::write` appends its whole buffer and returns its length.
-/

namespace TinyWasm

def two31 : Int := 2147483648

def two32 : Int := 4294967296

def two63 : Int := 9223372036854775808

def two64 : Int := 18446744073709551616

/-- Two's-complement wrap-around into the `i32` range, as `i32::wrapping_add`
produces. -/
def wrap32 (x : Int) : Int := (x + two31) % two32 - two31

/-- Two's-complement wrap-around into the `i64` range. -/
def wrap64 (x : Int) : Int := (x + two63) % two64 - two63

/-- Rust `as usize` on a signed integer (64-bit host): the value modulo
`2 ^ 64`. -/
def intToUsize (v : Int) : Nat := (v % two64).toNat

/-- Runtime failure: `err` for an `anyhow` error (`bail!`/`ok_or`), `panic`
for a Rust panic, which aborts the process. -/
inductive RtErr where
  | err (msg : String)
  | panic (msg : String)
deriving DecidableEq, Repr

/-- Runtime value (`Value` in `value.rs`): a tagged union of `i32` and
`i64`. -/
inductive Value where
  | I32 (v : Int)
  | I64 (v : Int)
deriving DecidableEq, Repr

/-- The `impl Add for Value`: `wrapping_add` on matching tags, panic on a
type mismatch. -/
def Value.add : Value → Value → Except RtErr Value
  | .I32 a, .I32 b => .ok (.I32 (wrap32 (a + b)))
  | .I64 a, .I64 b => .ok (.I64 (wrap64 (a + b)))
  | _, _ => .error (.panic ("type mismatch"))

/-- The `impl Sub for Value`: plain `left - right` (not `wrapping_sub`), so
the subtraction panics on overflow under the default debug/test profile. -/
def Value.sub : Value → Value → Except RtErr Value
  | .I32 a, .I32 b =>
      if -two31 ≤ a - b ∧ a - b < two31 then .ok (.I32 (a - b))
      else .error (.panic ("attempt to subtract with overflow"))
  | .I64 a, .I64 b =>
      if -two63 ≤ a - b ∧ a - b < two63 then .ok (.I64 (a - b))
      else .error (.panic ("attempt to subtract with overflow"))
  | _, _ => .error (.panic ("type mismatch"))

/-- Signed `<` on values followed by `From<bool> for Value`
(`I32(1)`/`I32(0)`); the `PartialOrd` impl panics on a type mismatch. -/
def Value.lts : Value → Value → Except RtErr Value
  | .I32 a, .I32 b => .ok (.I32 (if a < b then 1 else 0))
  | .I64 a, .I64 b => .ok (.I32 (if a < b then 1 else 0))
  | _, _ => .error (.panic ("type mismatch"))

/-- The `From<Value> for i32` impl: the payload of `I32`, panic otherwise. -/
def Value.toI32 : Value → Except RtErr Int
  | .I32 v => .ok v
  | _ => .error (.panic ("type mismatch"))

inductive ValueType where
  | I32
  | I64
deriving DecidableEq, Repr

structure FuncType where
  params : List ValueType
  results : List ValueType
deriving DecidableEq, Repr

inductive BlockType where
  | Empty
deriving DecidableEq, Repr

/-- Result count of a block type: 0 for `Empty`, the only variant the
decoder produces. -/
def BlockType.result_count : BlockType → Nat
  | .Empty => 0

structure Block where
  block_type : BlockType
deriving DecidableEq, Repr

/-- The instruction subset of `binary/instruction.rs`; `u32` immediates are
`Nat`, the `i32` immediate of `I32Const` is `Int`. -/
inductive Instruction where
  | If (block : Block)
  | End
  | Return
  | Call (idx : Nat)
  | LocalGet (idx : Nat)
  | LocalSet (idx : Nat)
  | I32Store (align : Nat) (offset : Nat)
  | I32Const (value : Int)
  | I32Lts
  | I32Add
  | I32Sub
deriving DecidableEq, Repr

inductive LabelKind where
  | If
deriving DecidableEq, Repr

structure Label where
  kind : LabelKind
  pc : Nat
  sp : Nat
  arity : Nat
deriving DecidableEq, Repr

/-- Activation frame (`runtime.rs`): `pc` is an `isize` starting at `-1`. -/
structure Frame where
  pc : Int
  sp : Nat
  insts : List Instruction
  arity : Nat
  labels : List Label
  locals : List Value
deriving DecidableEq, Repr

structure Func where
  locals : List ValueType
  body : List Instruction
deriving DecidableEq, Repr

structure InternalFuncInst where
  func_type : FuncType
  code : Func
deriving DecidableEq, Repr

structure ExternalFuncInst where
  module : String
  func : String
  func_type : FuncType
deriving DecidableEq, Repr

inductive FuncInst where
  | Internal (f : InternalFuncInst)
  | External (f : ExternalFuncInst)
deriving DecidableEq, Repr

inductive ExportDesc where
  | Func (idx : Nat)
deriving DecidableEq, Repr

structure ExportInst where
  name : String
  desc : ExportDesc
deriving DecidableEq, Repr

/-- The export table: a `HashMap<String, ExportInst>` modelled as an
association list with unique keys; `insertExport` overwrites an existing
binding like `HashMap::insert`. -/
structure ModuleInst where
  exports : List (String × ExportInst)
deriving DecidableEq, Repr

structure MemoryInst where
  data : List Nat
  max : Option Nat
deriving DecidableEq, Repr

structure Store where
  funcs : List FuncInst
  module : ModuleInst
  memories : List MemoryInst
deriving DecidableEq, Repr

inductive ImportDesc where
  | Func (type_idx : Nat)
deriving DecidableEq, Repr

structure Import where
  module : String
  field : String
  desc : ImportDesc
deriving DecidableEq, Repr

structure Export where
  name : String
  desc : ExportDesc
deriving DecidableEq, Repr

structure Limits where
  min : Nat
  max : Option Nat
deriving DecidableEq, Repr

structure Memory where
  limits : Limits
deriving DecidableEq, Repr

/-- Data segment as the execution layer consumes it: the decoded constant
expression is an `i32` offset. -/
structure Data where
  memory_index : Nat
  offset : Int
  init : List Nat
deriving DecidableEq, Repr

structure FunctionLocal where
  type_count : Nat
  value_type : ValueType
deriving DecidableEq, Repr

structure Function where
  locals : List FunctionLocal
  code : List Instruction
deriving DecidableEq, Repr

/-- Decoded module AST (`binary/module.rs`), restricted to the fields the
execution layer reads (magic and version are not consulted after
decoding). -/
structure Module where
  memory_section : Option (List Memory) := none
  type_section : Option (List FuncType) := none
  function_section : Option (List Nat) := none
  import_section : Option (List Import) := none
  export_section : Option (List Export) := none
  data_section : Option (List Data) := none
  code_section : Option (List Function) := none
deriving DecidableEq, Repr

def PAGE_SIZE : Nat := 65536

/-- Resolution of a type index against the optional type section
(`Store::new`'s two `bail!` sites). -/
def resolveType (types : Option (List FuncType)) (idx : Nat) : Except RtErr FuncType :=
  match types with
  | none => .error (.err ("not found type_section"))
  | some ts =>
    match ts.get? idx with
    | none => .error (.err ("not found func type in type_section"))
    | some t => .ok t

/-- The import loop of `Store::new`: one `External` entry per function
import, in import-section order. -/
def buildImportFuncs (types : Option (List FuncType)) : List Import → Except RtErr (List FuncInst)
  | [] => .ok []
  | imp :: rest =>
    match imp.desc with
    | .Func tidx => do
      let ft ← resolveType types tidx
      let tail ← buildImportFuncs types rest
      .ok (.External ⟨imp.module, imp.field, ft⟩ :: tail)

/-- Flattening of a code body's locals: each `value_type` repeated
`type_count` times. -/
def flattenLocals : List FunctionLocal → List ValueType
  | [] => []
  | l :: rest => List.replicate l.type_count l.value_type ++ flattenLocals rest

/-- The code-section loop of `Store::new`: the code section zipped with the
function section's type indices. -/
def buildInternalFuncs (types : Option (List FuncType)) :
    List (Function × Nat) → Except RtErr (List FuncInst)
  | [] => .ok []
  | (body, tidx) :: rest => do
    let ft ← resolveType types tidx
    let tail ← buildInternalFuncs types rest
    .ok (.Internal ⟨ft, ⟨flattenLocals body.locals, body.code⟩⟩ :: tail)

/-- HashMap::insert on the export table: overwrite the binding if the key
exists, append otherwise. -/
def insertExport (m : List (String × ExportInst)) (name : String) (e : ExportInst) :
    List (String × ExportInst) :=
  match m with
  | [] => [(name, e)]
  | (k, v) :: rest => if k = name then (name, e) :: rest else (k, v) :: insertExport rest name e

def buildExports : List Export → List (String × ExportInst) → List (String × ExportInst)
  | [], acc => acc
  | ex :: rest, acc => buildExports rest (insertExport acc ex.name ⟨ex.name, ex.desc⟩)

/-- Memory allocation loop of `Store::new`: `min * PAGE_SIZE` zero bytes,
where the multiplication is on `u32` and hence panics on overflow under the
default debug/test profile. -/
def allocMemories : List Memory → Except RtErr (List MemoryInst)
  | [] => .ok []
  | mem :: rest =>
    if mem.limits.min * PAGE_SIZE < 4294967296 then do
      let tail ← allocMemories rest
      .ok (⟨List.replicate (mem.limits.min * PAGE_SIZE) 0, mem.limits.max⟩ :: tail)
    else .error (.panic ("attempt to multiply with overflow"))

/-- The `copy_from_slice` write `mem[start .. start + bytes.length] = bytes`,
panicking when the slice is out of range. -/
def writeBytes (mem : List Nat) (start : Nat) (bytes : List Nat) : Except RtErr (List Nat) :=
  if start + bytes.length ≤ mem.length then
    .ok (mem.take start ++ bytes ++ mem.drop (start + bytes.length))
  else .error (.panic ("slice index out of range"))

/-- The data-segment loop of `Store::new`: bounds-checked copy of each
segment's `init` bytes, `bail!("data is too large to fit in memory")` when
`offset + init.len()` exceeds the target memory. -/
def applyDataSegments : List Data → List MemoryInst → Except RtErr (List MemoryInst)
  | [], mems => .ok mems
  | seg :: rest, mems =>
    match mems.get? seg.memory_index with
    | none => .error (.err ("not found memory"))
    | some mem =>
      if intToUsize seg.offset + seg.init.length ≤ mem.data.length then
        applyDataSegments rest (mems.set seg.memory_index
          ⟨mem.data.take (intToUsize seg.offset) ++ seg.init ++
            mem.data.drop (intToUsize seg.offset + seg.init.length), mem.max⟩)
      else .error (.err ("data is too large to fit in memory"))

/-- Store::new: imports first, then code bodies zipped with the function
section, then exports, memory allocation and data segments. -/
def Store.new (m : Module) : Except RtErr Store := do
  let type_idxs := m.function_section.getD []
  let ext ← buildImportFuncs m.type_section (m.import_section.getD [])
  let intl ← buildInternalFuncs m.type_section ((m.code_section.getD []).zip type_idxs)
  let exports := buildExports (m.export_section.getD []) []
  let mems ← allocMemories (m.memory_section.getD [])
  let mems2 ← applyDataSegments (m.data_section.getD []) mems
  .ok ⟨ext ++ intl, ⟨exports⟩, mems2⟩

/-- Little-endian bytes of an `i32` (`i32::to_le_bytes`). -/
def i32ToLeBytes (v : Int) : List Nat :=
  [(v % two32).toNat % 256, (v % two32).toNat / 256 % 256,
   (v % two32).toNat / 65536 % 256, (v % two32).toNat / 16777216 % 256]

/-- Decoding of four little-endian bytes as an `i32`
(`i32::from_le_bytes`). -/
def i32FromLeBytes (b0 b1 b2 b3 : Nat) : Int :=
  let n : Int := (b0 : Int) + 256 * b1 + 65536 * b2 + 16777216 * b3
  if n < two31 then n else n - two32

/-- Little-endian bytes of a `usize` (`usize::to_le_bytes` on a 64-bit
host): eight bytes. -/
def usizeToLeBytes (n : Nat) : List Nat :=
  [n % 256, n / 256 % 256, n / 65536 % 256, n / 16777216 % 256,
   n / 4294967296 % 256, n / 1099511627776 % 256,
   n / 281474976710656 % 256, n / 72057594037927936 % 256]

/-- WASI shim state: each host file handle is modelled by the bytes written
to it so far (`file_table[0..3]` are stdin/stdout/stderr at startup). -/
structure WasiSnapshotPreview1 where
  file_table : List (List Nat)
deriving DecidableEq, Repr

/-- The free function `memory_read` of `wasi.rs`: a little-endian `i32` from
`buf[start .. start + 4]`; the slice panics when out of range. -/
def memory_read (buf : List Nat) (start : Nat) : Except RtErr Int :=
  match buf.get? start, buf.get? (start + 1), buf.get? (start + 2), buf.get? (start + 3) with
  | some b0, some b1, some b2, some b3 => .ok (i32FromLeBytes b0 b1 b2 b3)
  | _, _, _, _ => .error (.panic ("slice index out of range"))

/-- The free function `memory_write` of `wasi.rs`: an unchecked
`copy_from_slice`. -/
def memory_write (buf : List Nat) (start : Nat) (data : List Nat) : Except RtErr (List Nat) :=
  writeBytes buf start data

/-- The iovec loop of `fd_write`: reads (buf_ptr, buf_len) pairs at `iovs`,
appends each guest-memory chunk to the file handle and accumulates the count
of bytes written.  Returns the file contents and the total. -/
def fdWriteLoop (mem : List Nat) : Nat → Nat → Nat → List Nat →
    Except RtErr (List Nat × Nat)
  | 0, _, nwritten, fileData => .ok (fileData, nwritten)
  | k + 1, iovs, nwritten, fileData => do
    let startI ← memory_read mem iovs
    let lenI ← memory_read mem (iovs + 4)
    let start := intToUsize startI
    let stop := start + intToUsize lenI
    if stop ≤ mem.length then
      fdWriteLoop mem k (iovs + 8) (nwritten + (stop - start))
        (fileData ++ (mem.drop start).take (stop - start))
    else .error (.panic ("slice index out of range"))

/-- WasiSnapshotPreview1::fd_write.  Arguments are converted to `i32`
(panicking on an `i64` or on fewer than four arguments), the file handle and
memory are looked up, the iovec loop runs `iovs_len` times (zero times for a
negative count, as Rust's `0..n` range is then empty), and the accumulated
total is stored with `usize::to_le_bytes` — eight bytes — at `nwritten_ptr`
before `I32(0)` is returned. -/
def WasiSnapshotPreview1.fd_write (w : WasiSnapshotPreview1) (store : Store)
    (args : List Value) : Except RtErr (Option Value × Store × WasiSnapshotPreview1) :=
  match args.mapM Value.toI32 with
  | .error e => .error e
  | .ok argsI =>
    match argsI.get? 0, argsI.get? 1, argsI.get? 2, argsI.get? 3 with
    | some fd, some iovsP, some iovsLen, some rp =>
      match w.file_table.get? (intToUsize fd) with
      | none => .error (.err ("not found fd"))
      | some fileData =>
        match store.memories.get? 0 with
        | none => .error (.err ("not found memory"))
        | some mem => do
          let out ← fdWriteLoop mem.data iovsLen.toNat (intToUsize iovsP) 0 fileData
          let newData ← memory_write mem.data (intToUsize rp) (usizeToLeBytes out.2)
          .ok (some (.I32 0),
            { store with memories := store.memories.set 0 { mem with data := newData } },
            { w with file_table := w.file_table.set (intToUsize fd) out.1 })
    | _, _, _, _ => .error (.panic ("index out of bounds"))

/-- WasiSnapshotPreview1::invoke: only `fd_write` is implemented. -/
def WasiSnapshotPreview1.invoke (w : WasiSnapshotPreview1) (store : Store) (func : String)
    (args : List Value) : Except RtErr (Option Value × Store × WasiSnapshotPreview1) :=
  if func = "fd_write" then w.fd_write store args
  else .error (.panic ("unimplemented"))

/-- Host import callable: receives the store and the argument list, returns
an optional value and the (possibly mutated) store, or an error. -/
def HostFunc : Type := Store → List Value → Except RtErr (Option Value × Store)

/-- The two-level registry `module → field → callable` of `import.rs`,
modelled as nested association lists. -/
def ImportMap : Type := List (String × List (String × HostFunc))

structure Runtime where
  store : Store
  stack : List Value
  call_stack : List Frame
  imports : ImportMap
  wasi : Option WasiSnapshotPreview1

/-- Label and operand-stack unwinding (`stack_unwind` in `runtime.rs`): with
a positive arity, pop one result, drain everything above `sp` and push it
back; the `drain(sp..)` panics when `sp` exceeds the remaining length. -/
def stack_unwind (stack : List Value) (sp arity : Nat) : Except RtErr (List Value) :=
  if 0 < arity then
    match stack with
    | [] => .error (.err ("not found return value"))
    | value :: rest =>
      if sp ≤ rest.length then .ok (value :: rest.drop (rest.length - sp))
      else .error (.panic ("drain start out of range"))
  else
    if sp ≤ stack.length then .ok (stack.drop (stack.length - sp))
    else .error (.panic ("drain start out of range"))

/-- Forward scan for the matching `End` (`get_end_address`): nested `If`
raises the depth, `End` at depth 0 is the match; running off the end of the
list is an error.  The first argument is structural fuel: `pc` strictly
increases and the scan stops at the list's end, so `insts.length` steps
always suffice, and exhausted fuel coincides with the run-off-the-end
error. -/
def getEndAux (insts : List Instruction) : Nat → Nat → Nat → Except RtErr Nat
  | 0, _, _ => .error (.err ("not found instructions"))
  | fuel + 1, pc, depth =>
    match insts.get? (pc + 1) with
    | none => .error (.err ("not found instructions"))
    | some (.If _) => getEndAux insts fuel (pc + 1) (depth + 1)
    | some .End =>
      if depth = 0 then .ok (pc + 1) else getEndAux insts fuel (pc + 1) (depth - 1)
    | some _ => getEndAux insts fuel (pc + 1) depth

def get_end_address (insts : List Instruction) (pc : Nat) : Except RtErr Nat :=
  getEndAux insts insts.length pc 0

def zeroLocal : ValueType → Value
  | .I32 => .I32 0
  | .I64 => .I64 0

/-- Runtime::push_frame: the top `params.len()` stack values become the
locals (bottom-to-top), zero-initialised declared locals follow, `sp` is the
remaining depth and `pc` starts at `-1`.  The `len - params.len()`
subtraction underflows (panics) when the stack is too short. -/
def Runtime.push_frame (r : Runtime) (func : InternalFuncInst) : Except RtErr Runtime :=
  let n := func.func_type.params.length
  if n ≤ r.stack.length then
    let fr : Frame :=
      { pc := -1, sp := (r.stack.drop n).length, insts := func.code.body,
        arity := func.func_type.results.length, labels := [],
        locals := (r.stack.take n).reverse ++ func.code.locals.map zeroLocal }
    .ok { r with stack := r.stack.drop n, call_stack := fr :: r.call_stack }
  else .error (.panic ("attempt to subtract with overflow"))

/-- Registry dispatch of `invoke_external`: module then field lookup,
then the callable runs against the store. -/
def Runtime.importDispatch (r : Runtime) (func : ExternalFuncInst) (args : List Value) :
    Except RtErr (Option Value × Runtime) :=
  match (r.imports.find? (fun p => p.1 = func.module)).map Prod.snd with
  | none => .error (.err ("not found module"))
  | some fields =>
    match (fields.find? (fun p => p.1 = func.func)).map Prod.snd with
    | none => .error (.err ("not found function"))
    | some hf =>
      match hf r.store args with
      | .error e => .error e
      | .ok (res, st) => .ok (res, { r with store := st })

/-- Runtime::invoke_external: split the arguments off the stack, dispatch to
the WASI shim when the module is `wasi_snapshot_preview1` and a shim is
present, otherwise consult the import registry. -/
def Runtime.invoke_external (r : Runtime) (func : ExternalFuncInst) :
    Except RtErr (Option Value × Runtime) :=
  let n := func.func_type.params.length
  if n ≤ r.stack.length then
    let args := (r.stack.take n).reverse
    let r1 : Runtime := { r with stack := r.stack.drop n }
    if func.module = "wasi_snapshot_preview1" then
      match r1.wasi with
      | some w =>
        match w.invoke r1.store func.func args with
        | .error e => .error e
        | .ok (res, st, w') => .ok (res, { r1 with store := st, wasi := some w' })
      | none => r1.importDispatch func args
    else r1.importDispatch func args
  else .error (.panic ("attempt to subtract with overflow"))

/-- Outcome of one iteration of the fetch/execute loop: `stop` when the loop
breaks (empty call stack or fetch past the end), `next` to continue. -/
inductive StepOut where
  | stop (r : Runtime)
  | next (r : Runtime)

/-- Dispatch of one fetched instruction inside `Runtime::execute`'s loop.
`fr` is the top frame with its `pc` already pre-incremented, `rest` the
frames below it; `r.call_stack` still holds the un-incremented frame, and
every branch rebuilds it as `fr :: rest` exactly as the Rust loop body
mutates the borrowed top frame in place. -/
def Runtime.execInst (r : Runtime) (fr : Frame) (rest : List Frame) :
    Instruction → Except RtErr StepOut
      | .If block =>
        match r.stack with
        | [] => .error (.err ("not found value in the stack"))
        | cond :: stk =>
          match (if cond = Value.I32 0 then
                   (get_end_address fr.insts (intToUsize fr.pc)).map (fun a => (a : Int))
                 else .ok fr.pc) with
          | .error e => .error e
          | .ok pc2 =>
            let label : Label :=
              { kind := .If, pc := intToUsize pc2, sp := stk.length,
                arity := block.block_type.result_count }
            .ok (.next { r with
                         stack := stk,
                         call_stack :=
                           { fr with pc := pc2, labels := label :: fr.labels } :: rest })
      | .End =>
        match fr.labels with
        | label :: ls =>
          match stack_unwind r.stack label.sp label.arity with
          | .error e => .error e
          | .ok stk =>
            .ok (.next { r with
                         stack := stk,
                         call_stack :=
                           { fr with pc := (label.pc : Int), labels := ls } :: rest })
        | [] =>
          match stack_unwind r.stack fr.sp fr.arity with
          | .error e => .error e
          | .ok stk => .ok (.next { r with stack := stk, call_stack := rest })
      | .Return =>
        match stack_unwind r.stack fr.sp fr.arity with
        | .error e => .error e
        | .ok stk => .ok (.next { r with stack := stk, call_stack := rest })
      | .LocalGet idx =>
        match fr.locals.get? idx with
        | none => .error (.err ("not found local"))
        | some v => .ok (.next { r with stack := v :: r.stack, call_stack := fr :: rest })
      | .LocalSet idx =>
        match r.stack with
        | [] => .error (.err ("not found value in the stack"))
        | v :: stk =>
          if idx < fr.locals.length then
            .ok (.next { r with
                         stack := stk,
                         call_stack := { fr with locals := fr.locals.set idx v } :: rest })
          else .error (.panic ("index out of bounds"))
      | .I32Store _ offset =>
        match r.stack with
        | value :: addr :: stk =>
          match addr.toI32 with
          | .error e => .error e
          | .ok ai =>
            match r.store.memories.get? 0 with
            | none => .error (.err ("not found memory"))
            | some mem =>
              match value.toI32 with
              | .error e => .error e
              | .ok vi =>
                match writeBytes mem.data (intToUsize ai + offset) (i32ToLeBytes vi) with
                | .error e => .error e
                | .ok d =>
                  .ok (.next { r with
                               stack := stk,
                               store := { r.store with
                                          memories :=
                                            r.store.memories.set 0 { mem with data := d } },
                               call_stack := fr :: rest })
        | _ => .error (.err ("not found any value in the stack"))
      | .I32Const v =>
        .ok (.next { r with stack := .I32 v :: r.stack, call_stack := fr :: rest })
      | .I32Add =>
        match r.stack with
        | right :: left :: stk =>
          match left.add right with
          | .error e => .error e
          | .ok res => .ok (.next { r with stack := res :: stk, call_stack := fr :: rest })
        | _ => .error (.err ("not found any value in the stack"))
      | .I32Sub =>
        match r.stack with
        | right :: left :: stk =>
          match left.sub right with
          | .error e => .error e
          | .ok res => .ok (.next { r with stack := res :: stk, call_stack := fr :: rest })
        | _ => .error (.err ("not found any value in the stack"))
      | .I32Lts =>
        match r.stack with
        | right :: left :: stk =>
          match left.lts right with
          | .error e => .error e
          | .ok res => .ok (.next { r with stack := res :: stk, call_stack := fr :: rest })
        | _ => .error (.err ("not found any value in the stack"))
      | .Call idx =>
        match r.store.funcs.get? idx with
        | none => .error (.err ("not found func"))
        | some (.Internal f) =>
          match Runtime.push_frame { r with call_stack := fr :: rest } f with
          | .error e => .error e
          | .ok r' => .ok (.next r')
        | some (.External f) =>
          match Runtime.invoke_external { r with call_stack := fr :: rest } f with
          | .error e => .error e
          | .ok (none, r') => .ok (.next r')
          | .ok (some v, r') => .ok (.next { r' with stack := v :: r'.stack })

/-- One iteration of `Runtime::execute`'s loop: break on an empty call
stack, pre-increment the top frame's `pc`, break (keeping the incremented
frame) when the fetch runs past the body, otherwise dispatch. -/
def Runtime.executeStep (r : Runtime) : Except RtErr StepOut :=
  match r.call_stack with
  | [] => .ok (.stop r)
  | frame :: rest =>
    let fr : Frame := { frame with pc := frame.pc + 1 }
    match fr.insts.get? (intToUsize fr.pc) with
    | none => .ok (.stop { r with call_stack := fr :: rest })
    | some inst => r.execInst fr rest inst

/-- The fetch/execute loop, fuelled: `none` means the fuel ran out (the Rust
loop would still be running). -/
def Runtime.executeLoop : Nat → Runtime → Option (Except RtErr Unit × Runtime)
  | 0, _ => none
  | fuel + 1, r =>
    match r.executeStep with
    | .error e => some (.error e, r)
    | .ok (.stop r') => some (.ok (), r')
    | .ok (.next r') => Runtime.executeLoop fuel r'

/-- Runtime::cleanup: both stacks are reset to empty. -/
def Runtime.cleanup (r : Runtime) : Runtime := { r with stack := [], call_stack := [] }

/-- Runtime::invoke_internal: push the frame, run the loop; an execution
error is wrapped and both stacks are cleared (a panic aborts instead); on
success, with a positive arity the result is popped off the stack. -/
def Runtime.invoke_internal (fuel : Nat) (r : Runtime) (func : InternalFuncInst) :
    Option (Except RtErr (Option Value) × Runtime) :=
  match r.push_frame func with
  | .error e => some (.error e, r)
  | .ok r1 =>
    match Runtime.executeLoop fuel r1 with
    | none => none
    | some (.error (.panic m), r2) => some (.error (.panic m), r2)
    | some (.error (.err m), r2) =>
      some (.error (.err ("failed to execute instructions: " ++ m)), r2.cleanup)
    | some (.ok _, r2) =>
      if func.func_type.results.length = 0 then some (.ok none, r2)
      else
        match r2.stack with
        | [] => some (.error (.err ("not found return value")), r2)
        | v :: stk => some (.ok (some v), { r2 with stack := stk })

/-- Runtime::call: resolve the export, look the function instance up, push
the arguments left-to-right, dispatch on Internal/External. -/
def Runtime.call (fuel : Nat) (r : Runtime) (name : String) (args : List Value) :
    Option (Except RtErr (Option Value) × Runtime) :=
  match (r.store.module.exports.find? (fun p => p.1 = name)).map Prod.snd with
  | none => some (.error (.err ("not found export function")), r)
  | some ex =>
    match ex.desc with
    | .Func idx =>
      match r.store.funcs.get? idx with
      | none => some (.error (.err ("not found func")), r)
      | some fi =>
        let r1 : Runtime := { r with stack := args.reverse ++ r.stack }
        match fi with
        | .Internal f => Runtime.invoke_internal fuel r1 f
        | .External f =>
          match r1.invoke_external f with
          | .error e => some (.error e, r1)
          | .ok (res, r2) => some (.ok res, r2)

/-! Concrete fixtures used to settle the claims.  Each runtime below is a
small, fully explicit machine state or module, so the theorems about them
evaluate by reduction. -/

def emptyStore : Store := ⟨[], ⟨[]⟩, []⟩

/-- Runtime about to execute `I32Sub` with operands `(i32::MIN, 1)`:
the operand stack holds the right operand `1` on top of `i32::MIN`. -/
def subMinRt : Runtime :=
  ⟨emptyStore, [.I32 1, .I32 (-2147483648)],
   [⟨-1, 0, [.I32Sub], 0, [], []⟩], [], none⟩

/-- Runtime about to execute `I32Add` with operands `(i32::MAX, 1)`. -/
def addMaxRt : Runtime :=
  ⟨emptyStore, [.I32 1, .I32 2147483647],
   [⟨-1, 0, [.I32Add], 0, [], []⟩], [], none⟩

/-- State `addMaxRt` steps to: the sum wrapped to `i32::MIN`. -/
def addMaxRt' : Runtime :=
  ⟨emptyStore, [.I32 (-2147483648)], [⟨0, 0, [.I32Add], 0, [], []⟩], [], none⟩

/-- Function whose taken `if` branch sets local 0 to 5; after the block the
local is returned.  Wasm semantics give `Ok(Some(I32(5)))`. -/
def takenIfFunc : InternalFuncInst :=
  { func_type := ⟨[], [.I32]⟩,
    code := ⟨[.I32],
      [.I32Const 1, .If ⟨.Empty⟩, .I32Const 5, .LocalSet 0, .End, .LocalGet 0, .End]⟩ }

def takenIfStore : Store :=
  ⟨[.Internal takenIfFunc], ⟨[("f", ⟨"f", .Func 0⟩)]⟩, []⟩

def takenIfRt : Runtime := ⟨takenIfStore, [], [], [], none⟩

/-- Body with an `if` whose condition is zero: the then-branch holds a
single `I32Const 7`; the final `End` is the function end. -/
def skipIfInsts : List Instruction := [.If ⟨.Empty⟩, .I32Const 7, .End, .End]

def skipIfRt : Runtime :=
  ⟨emptyStore, [.I32 0], [⟨-1, 0, skipIfInsts, 0, [], []⟩], [], none⟩

/-- State after executing the `If`: `pc` was set to the matching `End`'s
index 2 and the label (recording `pc = 2`) was pushed, so the next fetch is
at index 3 — the matching `End` itself is never executed. -/
def skipIfRtMid : Runtime :=
  ⟨emptyStore, [], [⟨2, 0, skipIfInsts, 0, [⟨.If, 2, 0, 0⟩], []⟩], [], none⟩

/-- State after the next step: the function-end `End` at index 3 popped the
label the `If` pushed (instead of ending the frame) and jumped `pc` back
to 2. -/
def skipIfRtAfter : Runtime :=
  ⟨emptyStore, [], [⟨2, 0, skipIfInsts, 0, [], []⟩], [], none⟩

/-- WASI shim with the three startup descriptors, nothing written yet. -/
def wasiInit : WasiSnapshotPreview1 := ⟨[[], [], []]⟩

/-- Store with a 16-byte memory, for the `nwritten` boundary case. -/
def fdStore16 : Store := ⟨[], ⟨[]⟩, [⟨List.replicate 16 0, none⟩]⟩

/-- Memory with one iovec at 0 (buf_ptr 8, buf_len 3), payload `[65,66,67]`
at 8, and marker bytes `9` at 20..24, right after the 4 bytes the claim says
`fd_write` stores at `nwritten_ptr = 16`. -/
def fdMem32 : List Nat :=
  [8, 0, 0, 0, 3, 0, 0, 0, 65, 66, 67, 0, 0, 0, 0, 0,
   0, 0, 0, 0, 9, 9, 9, 9, 0, 0, 0, 0, 0, 0, 0, 0]

def fdStore32 : Store := ⟨[], ⟨[]⟩, [⟨fdMem32, none⟩]⟩

/-- The memory `fd_write` actually produces from `fdMem32`: the total 3 is
stored as eight little-endian bytes at 16, zeroing the marker bytes at
20..24. -/
def fdMem32After : List Nat :=
  [8, 0, 0, 0, 3, 0, 0, 0, 65, 66, 67, 0, 0, 0, 0, 0,
   3, 0, 0, 0, 0, 0, 0, 0, 0, 0, 0, 0, 0, 0, 0, 0]

/-- Module whose code section has two bodies but whose function section
lists a single type index: `zip` silently drops the second body. -/
def twoBodyMod : Module :=
  { type_section := some [⟨[], []⟩],
    function_section := some [0],
    code_section := some [⟨[], [.End]⟩, ⟨[], [.End]⟩] }

/-- Module declaring `Limits { min: 65536 }` (a legal 4 GiB Wasm memory)
with one one-byte data segment at offset 0. -/
def hugeMinMod : Module :=
  { memory_section := some [⟨⟨65536, none⟩⟩],
    data_section := some [⟨0, 0, [42]⟩] }

/-- Function of type `() → (i32)` whose body runs past its last instruction
(no terminating `End`/`Return`). -/
def runoffFunc : InternalFuncInst := { func_type := ⟨[], [.I32]⟩, code := ⟨[], [.I32Const 1]⟩ }

def runoffStore : Store := ⟨[.Internal runoffFunc], ⟨[("f", ⟨"f", .Func 0⟩)]⟩, []⟩

def runoffRt : Runtime := ⟨runoffStore, [], [], [], none⟩

/-- State `call` returns for `runoffFunc`: `Ok`, yet the frame is still on
the call stack. -/
def runoffRtFinal : Runtime :=
  ⟨runoffStore, [], [⟨1, 0, [.I32Const 1], 1, [], []⟩], [], none⟩

/-- The two-parameter `add` function of the repository's fixtures. -/
def addFunc2 : InternalFuncInst :=
  { func_type := ⟨[.I32, .I32], [.I32]⟩,
    code := ⟨[], [.LocalGet 0, .LocalGet 1, .I32Add, .End]⟩ }

def addStore2 : Store := ⟨[.Internal addFunc2], ⟨[("add", ⟨"add", .Func 0⟩)]⟩, []⟩

def addRt2 : Runtime := ⟨addStore2, [], [], [], none⟩

/-- State `call` returns when `add` is invoked with three arguments: the
extra first argument is left on the operand stack. -/
def addRt2Final : Runtime := ⟨addStore2, [.I32 1], [], [], none⟩

/-- Runtime about to execute `LocalGet 0` in a frame with no locals. -/
def localGetRt : Runtime :=
  ⟨emptyStore, [], [⟨-1, 0, [.LocalGet 0], 0, [], []⟩], [], none⟩

/-- Runtime about to execute `LocalSet 0` in a frame with no locals. -/
def localSetRt : Runtime :=
  ⟨emptyStore, [.I32 1], [⟨-1, 0, [.LocalSet 0], 0, [], []⟩], [], none⟩

/-- Everything observable about a runtime except its import registry (whose
callables have no useful equality). -/
def Runtime.view (r : Runtime) :
    Store × List Value × List Frame × Option WasiSnapshotPreview1 :=
  (r.store, r.stack, r.call_stack, r.wasi)

/-- Outcome of an external invocation with the runtime projected through
`Runtime.view`. -/
def resultView (x : Except RtErr (Option Value × Runtime)) :
    Except RtErr (Option Value ×
      (Store × List Value × List Frame × Option WasiSnapshotPreview1)) :=
  match x with
  | .error e => .error e
  | .ok (v, r) => .ok (v, r.view)

/-- Host callable returning `I32(7)` and leaving the store unchanged, used
to exhibit registry dispatch. -/
def host7 : HostFunc := fun st _ => .ok (some (.I32 7), st)

/-- External-function instance naming the WASI shim's `fd_write` with an
empty signature, for the dispatch witness. -/
def wasiFdFunc : ExternalFuncInst := ⟨"wasi_snapshot_preview1", "fd_write", ⟨[], []⟩⟩

/-- Module with one imported and one internal function, for the layout
witness: imported `env.f` of type index 0, internal body of type index 1
with two flattened `i32` locals. -/
def layoutMod : Module :=
  { type_section := some [⟨[], []⟩, ⟨[.I32], [.I32]⟩],
    import_section := some [⟨"env", "f", .Func 0⟩],
    function_section := some [1],
    code_section := some [⟨[⟨2, .I32⟩], [.End]⟩] }

/-- The store `layoutMod` instantiates to. -/
def layoutStore : Store :=
  ⟨[.External ⟨"env", "f", ⟨[], []⟩⟩,
    .Internal ⟨⟨[.I32], [.I32]⟩, ⟨[.I32, .I32], [.End]⟩⟩], ⟨[]⟩, []⟩

/-- Module with a one-page memory and a five-byte segment at offset 3, for
the memory-initialisation witness. -/
def memMod : Module :=
  { memory_section := some [⟨⟨1, none⟩⟩],
    data_section := some [⟨0, 3, [104, 101, 108, 108, 111]⟩] }

/-- The runtime `call` leaves behind after a well-typed `add` invocation:
both stacks empty. -/
def addRt2Done : Runtime := ⟨addStore2, [], [], [], none⟩

/-- C1: `I32Add` does wrap (`i32::MAX + 1` steps to `i32::MIN`), but
`I32Sub` is written with plain `-`, so on `(i32::MIN, 1)` it hits the
overflow panic of the default debug/test profile instead of producing the
two's-complement wrap `i32::MAX` the claim states; the wrap the claim
expects is exhibited by `wrap32`. -/
theorem i32sub_min_one_overflows :
    Runtime.executeStep addMaxRt = .ok (.next addMaxRt')
    ∧ Runtime.executeStep subMinRt = .error (.panic ("attempt to subtract with overflow"))
    ∧ wrap32 (-2147483648 - 1) = 2147483647 :=
  ⟨rfl, rfl, by decide⟩

/-- C2: executing `takenIfFunc` (condition non-zero) must, per the claim,
resume at the matching `End` + 1 and return `Ok(Some(I32(5)))`; instead the
`End` of the taken branch restores `pc` from the label — which recorded the
`If`'s own index — so the branch body runs again and the call fails with a
stack-underflow trap. -/
theorem taken_if_does_not_resume_after_end :
    Runtime.call 100 takenIfRt "f" []
      = some (.error (.err ("failed to execute instructions: not found return value")),
              takenIfRt) :=
  rfl

/-- C3: when `If` pops a zero condition it jumps `pc` to the matching `End`
(index 2) and pushes a label, but the pre-increment then fetches index 3, so
the matching `End` is never executed and the label is still on the label
stack after the skipped block; it is the function-end `End` at index 3 that
pops it and jumps `pc` back to 2.  The claim says the matching `End` pops
the label and the label stack returns to its pre-`If` state. -/
theorem zero_if_skips_matching_end_and_leaks_label :
    Runtime.executeStep skipIfRt = .ok (.next skipIfRtMid)
    ∧ Runtime.executeStep skipIfRtMid = .ok (.next skipIfRtAfter) :=
  ⟨rfl, rfl⟩

/-- C4: `fd_write` stores the accumulated total with `usize::to_le_bytes`,
which is eight bytes, not the four the claim states: with
`nwritten_ptr = 16` in a 32-byte memory the marker bytes at 20..24 are
zeroed (`fdMem32After`), and with `nwritten_ptr = 12` in a 16-byte memory —
in bounds for a 4-byte store — the write panics instead of succeeding. -/
theorem fd_write_stores_eight_bytes :
    wasiInit.fd_write fdStore32 [.I32 1, .I32 0, .I32 1, .I32 16]
      = .ok (some (.I32 0), ⟨[], ⟨[]⟩, [⟨fdMem32After, none⟩]⟩, ⟨[[], [65, 66, 67], []]⟩)
    ∧ wasiInit.fd_write fdStore16 [.I32 1, .I32 0, .I32 0, .I32 12]
      = .error (.panic ("slice index out of range")) :=
  ⟨rfl, rfl⟩

/-- C6 counterexample: `twoBodyMod` instantiates successfully, yet its two
code-section bodies yield a single `Internal` entry, because the code
section is zipped with the shorter function section. -/
theorem store_funcs_zip_truncates :
    Store.new twoBodyMod = .ok ⟨[.Internal ⟨⟨[], []⟩, ⟨[], [.End]⟩⟩], ⟨[]⟩, []⟩
    ∧ (twoBodyMod.code_section.getD []).length = 2 :=
  ⟨rfl, rfl⟩

/-- C7 counterexample: for `Limits { min: 65536 }` the claim promises a
`min * 65536 = 2^32`-byte memory and a successful copy of the one-byte
segment, but the `u32` multiplication `min * PAGE_SIZE` overflows, so
instantiation never even reaches the data segments. -/
theorem memory_alloc_u32_overflows :
    Store.new hugeMinMod = .error (.panic ("attempt to multiply with overflow"))
    ∧ 65536 * PAGE_SIZE = 4294967296 :=
  ⟨rfl, by decide⟩

/-- C8 counterexample: `call` can return with a non-empty stack.  A body
that runs past its last instruction returns `Ok(Some(I32(1)))` with its
frame still on the call stack, and `add` invoked with three arguments for
two parameters returns `Ok(Some(I32(5)))` with the extra argument left on
the operand stack. -/
theorem call_can_leave_stacks_nonempty :
    Runtime.call 100 runoffRt "f" [] = some (.ok (some (.I32 1)), runoffRtFinal)
    ∧ runoffRtFinal.call_stack.length = 1
    ∧ Runtime.call 100 addRt2 "add" [.I32 1, .I32 2, .I32 3]
        = some (.ok (some (.I32 5)), addRt2Final)
    ∧ addRt2Final.stack = [.I32 1] :=
  ⟨rfl, rfl, rfl, rfl⟩

/-- C9: an out-of-range `LocalGet` fails with the trap error the claim
describes, but an out-of-range `LocalSet` assigns through `locals[idx]` and
panics (aborting the process) instead of returning a trap error. -/
theorem local_set_out_of_range_panics :
    Runtime.executeStep localGetRt = .error (.err ("not found local"))
    ∧ Runtime.executeStep localSetRt = .error (.panic ("index out of bounds")) :=
  ⟨rfl, rfl⟩

theorem i32ToLeBytes_length (v : Int) : (i32ToLeBytes v).length = 4 := rfl

theorem intToUsize_zero : intToUsize 0 = 0 := by decide

theorem writeBytes_ok (mem bytes : List Nat) (start : Nat)
    (h : start + bytes.length ≤ mem.length) :
    writeBytes mem start bytes
      = .ok (mem.take start ++ bytes ++ mem.drop (start + bytes.length)) := by
  simp [writeBytes, h]

theorem written_length (mem bytes : List Nat) (start : Nat)
    (h : start + bytes.length ≤ mem.length) :
    (mem.take start ++ bytes ++ mem.drop (start + bytes.length)).length = mem.length := by
  simp only [List.length_append, List.length_take, List.length_drop]
  omega

theorem written_get_lt (mem bytes : List Nat) (start i : Nat)
    (hs : start ≤ mem.length) (hi : i < start) :
    (mem.take start ++ bytes ++ mem.drop (start + bytes.length))[i]? = mem[i]? := by
  rw [List.append_assoc,
      List.getElem?_append_left (by simp only [List.length_take]; omega),
      List.getElem?_take]
  simp [hi]

theorem written_get_ge (mem bytes : List Nat) (start j : Nat)
    (hs : start ≤ mem.length) (hj : start + bytes.length ≤ j) :
    (mem.take start ++ bytes ++ mem.drop (start + bytes.length))[j]? = mem[j]? := by
  rw [List.getElem?_append_right
        (by simp only [List.length_append, List.length_take]; omega),
      List.getElem?_drop]
  congr 1
  simp only [List.length_append, List.length_take]
  omega

theorem written_get_mid (mem bytes : List Nat) (start j : Nat)
    (hs : start ≤ mem.length) (hj : j < bytes.length) :
    (mem.take start ++ bytes ++ mem.drop (start + bytes.length))[start + j]? = bytes[j]? := by
  rw [List.getElem?_append_left (by simp only [List.length_append, List.length_take]; omega),
      List.getElem?_append_right (by simp only [List.length_take]; omega)]
  congr 1
  simp only [List.length_take]
  omega

/-- C5: an in-bounds `I32Store { offset }` pops exactly the value and the
address, writes the four little-endian bytes of the value at
`addr + offset` in the single memory, leaves every other byte and the
memory's length unchanged, and continues; the bound `addr + offset + 4 ≤
memory.len()` covers the boundary case with equality (see the witness). -/
theorem i32store_in_bounds
    (align offset : Nat) (v a : Int) (stk : List Value) (cs : List Frame)
    (sp0 ar : Nat) (ls : List Label) (lo : List Value)
    (mem : MemoryInst) (mems : List MemoryInst) (fns : List FuncInst)
    (exps : ModuleInst) (M : ImportMap) (w : Option WasiSnapshotPreview1)
    (h : intToUsize a + offset + 4 ≤ mem.data.length) :
    Runtime.executeStep
        ⟨⟨fns, exps, mem :: mems⟩, .I32 v :: .I32 a :: stk,
         ⟨-1, sp0, [.I32Store align offset], ar, ls, lo⟩ :: cs, M, w⟩
      = .ok (.next
          ⟨⟨fns, exps,
            ⟨mem.data.take (intToUsize a + offset) ++ i32ToLeBytes v ++
               mem.data.drop (intToUsize a + offset + 4), mem.max⟩ :: mems⟩,
           stk, ⟨0, sp0, [.I32Store align offset], ar, ls, lo⟩ :: cs, M, w⟩)
    ∧ (mem.data.take (intToUsize a + offset) ++ i32ToLeBytes v ++
         mem.data.drop (intToUsize a + offset + 4)).length = mem.data.length
    ∧ (∀ i, i < intToUsize a + offset →
         (mem.data.take (intToUsize a + offset) ++ i32ToLeBytes v ++
            mem.data.drop (intToUsize a + offset + 4))[i]? = mem.data[i]?)
    ∧ (∀ j, intToUsize a + offset + 4 ≤ j →
         (mem.data.take (intToUsize a + offset) ++ i32ToLeBytes v ++
            mem.data.drop (intToUsize a + offset + 4))[j]? = mem.data[j]?)
    ∧ (∀ j, j < 4 →
         (mem.data.take (intToUsize a + offset) ++ i32ToLeBytes v ++
            mem.data.drop (intToUsize a + offset + 4))[intToUsize a + offset + j]?
           = (i32ToLeBytes v)[j]?) := by
  have hb : intToUsize a + offset + (i32ToLeBytes v).length ≤ mem.data.length := by
    rw [i32ToLeBytes_length]; exact h
  have hs : intToUsize a + offset ≤ mem.data.length := by omega
  refine ⟨?_, ?_, ?_, ?_, ?_⟩
  · simp only [Runtime.executeStep, Runtime.execInst, Value.toI32,
      show (-1 : Int) + 1 = 0 by norm_num, intToUsize_zero, List.get?]
    rw [writeBytes_ok _ _ _ hb]
    simp [i32ToLeBytes_length]
  · have := written_length mem.data (i32ToLeBytes v) (intToUsize a + offset) hb
    simpa [i32ToLeBytes_length] using this
  · intro i hi
    have := written_get_lt mem.data (i32ToLeBytes v) (intToUsize a + offset) i hs hi
    simpa [i32ToLeBytes_length] using this
  · intro j hj
    have := written_get_ge mem.data (i32ToLeBytes v) (intToUsize a + offset) j hs
      (by rw [i32ToLeBytes_length]; exact hj)
    simpa [i32ToLeBytes_length] using this
  · intro j hj
    have := written_get_mid mem.data (i32ToLeBytes v) (intToUsize a + offset) j hs
      (by rw [i32ToLeBytes_length]; exact hj)
    simpa [i32ToLeBytes_length] using this

/-- Witness for C5 at the boundary: an 8-byte memory, address 2, offset 2,
so `addr + offset + 4 = 8 = memory.len()`. -/
theorem i32store_in_bounds_boundary :
    Runtime.executeStep
        ⟨⟨[], ⟨[]⟩, [⟨List.replicate 8 0, none⟩]⟩, [.I32 5, .I32 2],
         [⟨-1, 0, [.I32Store 2 2], 0, [], []⟩], [], none⟩
      = .ok (.next
          ⟨⟨[], ⟨[]⟩,
            [⟨(List.replicate 8 0 : List Nat).take (intToUsize 2 + 2) ++ i32ToLeBytes 5 ++
                (List.replicate 8 0 : List Nat).drop (intToUsize 2 + 2 + 4), none⟩]⟩,
           [], [⟨0, 0, [.I32Store 2 2], 0, [], []⟩], [], none⟩) :=
  (i32store_in_bounds 2 2 5 2 [] [] 0 0 [] [] ⟨List.replicate 8 0, none⟩ [] [] ⟨[]⟩ []
    none (by decide)).1

/-- C10: for an external function whose module is `wasi_snapshot_preview1`,
when a WASI shim is present the observable outcome of `invoke_external` is
the same for every import registry (the registry is never consulted — even
one registering that very module and field), and when the shim is absent the
registry entry under that module name is dispatched to. -/
theorem wasi_shim_shadows_registry
    (r : Runtime) (f : ExternalFuncInst) (w : WasiSnapshotPreview1)
    (hm : f.module = "wasi_snapshot_preview1") (hw : r.wasi = some w) :
    (∀ M₁ M₂ : ImportMap,
       resultView (Runtime.invoke_external { r with imports := M₁ } f)
         = resultView (Runtime.invoke_external { r with imports := M₂ } f))
    ∧ (f.func_type.params = [] →
       Runtime.invoke_external
           { r with wasi := none, imports := [(f.module, [(f.func, host7)])] } f
         = .ok (some (.I32 7),
             { r with wasi := none, imports := [(f.module, [(f.func, host7)])] })) := by
  obtain ⟨st, sk, cs, M, wz⟩ := r
  simp only [Runtime.wasi] at hw
  subst hw
  constructor
  · intro M₁ M₂
    by_cases hn : f.func_type.params.length ≤ sk.length
    · simp only [Runtime.invoke_external, hm, if_pos hn, if_pos rfl]
      rcases hinv : w.invoke st f.func ((sk.take f.func_type.params.length).reverse) with e | ⟨res, st', w'⟩
      · simp [resultView]
      · simp [resultView, Runtime.view]
    · simp [Runtime.invoke_external, hn, resultView]
  · intro hp
    simp [Runtime.invoke_external, hm, hp, Runtime.importDispatch, List.find?, host7]

/-- Witness for C10: with the shim present, a registry that registers
`wasi_snapshot_preview1.fd_write` is indistinguishable from an empty one;
with `wasi = none`, the same registration is invoked and returns `I32(7)`. -/
theorem wasi_shim_shadows_registry_applied :
    resultView (Runtime.invoke_external
        ⟨emptyStore, [], [], [("wasi_snapshot_preview1", [("fd_write", host7)])],
         some wasiInit⟩ wasiFdFunc)
      = resultView (Runtime.invoke_external ⟨emptyStore, [], [], [], some wasiInit⟩ wasiFdFunc)
    ∧ Runtime.invoke_external
        ⟨emptyStore, [], [], [("wasi_snapshot_preview1", [("fd_write", host7)])], none⟩
        wasiFdFunc
      = .ok (some (.I32 7),
          ⟨emptyStore, [], [], [("wasi_snapshot_preview1", [("fd_write", host7)])], none⟩) :=
  ⟨(wasi_shim_shadows_registry ⟨emptyStore, [], [], [], some wasiInit⟩ wasiFdFunc wasiInit
      rfl rfl).1 [("wasi_snapshot_preview1", [("fd_write", host7)])] [],
   (wasi_shim_shadows_registry ⟨emptyStore, [], [], [], some wasiInit⟩ wasiFdFunc wasiInit
      rfl rfl).2 rfl⟩

theorem buildImportFuncs_sound (ty : Option (List FuncType)) (imps : List Import) :
    ∀ l, buildImportFuncs ty imps = .ok l →
      l.length = imps.length ∧
      ∀ i imp, imps.get? i = some imp →
        ∃ ft tidx, imp.desc = .Func tidx ∧ resolveType ty tidx = .ok ft ∧
          l.get? i = some (.External ⟨imp.module, imp.field, ft⟩) := by
  induction imps with
  | nil =>
    intro l h
    simp only [buildImportFuncs] at h
    cases h
    exact ⟨rfl, by intro i imp hi; simp at hi⟩
  | cons imp rest ih =>
    intro l h
    obtain ⟨imod, ifield, idesc⟩ := imp
    obtain ⟨tidx⟩ := idesc
    simp only [buildImportFuncs, bind, Except.bind] at h
    split at h
    · cases h
    · rename_i ft hr
      split at h
      · cases h
      · rename_i tail ht
        cases h
        obtain ⟨hlen, hall⟩ := ih tail ht
        refine ⟨by simp [hlen], ?_⟩
        intro i imp' hi
        cases i with
        | zero =>
          simp only [List.get?] at hi
          cases hi
          exact ⟨ft, tidx, rfl, hr, rfl⟩
        | succ n =>
          simp only [List.get?] at hi
          exact hall n imp' hi

theorem buildInternalFuncs_sound (ty : Option (List FuncType)) (pairs : List (Function × Nat)) :
    ∀ l, buildInternalFuncs ty pairs = .ok l →
      l.length = pairs.length ∧
      ∀ j body tidx, pairs.get? j = some (body, tidx) →
        ∃ ft, resolveType ty tidx = .ok ft ∧
          l.get? j = some (.Internal ⟨ft, ⟨flattenLocals body.locals, body.code⟩⟩) := by
  induction pairs with
  | nil =>
    intro l h
    simp only [buildInternalFuncs] at h
    cases h
    exact ⟨rfl, by intro j body tidx hj; simp at hj⟩
  | cons pair rest ih =>
    intro l h
    obtain ⟨body, tidx⟩ := pair
    simp only [buildInternalFuncs, bind, Except.bind] at h
    split at h
    · cases h
    · rename_i ft hr
      split at h
      · cases h
      · rename_i tail ht
        cases h
        obtain ⟨hlen, hall⟩ := ih tail ht
        refine ⟨by simp [hlen], ?_⟩
        intro j body' tidx' hj
        cases j with
        | zero =>
          simp only [List.get?] at hj
          cases hj
          exact ⟨ft, hr, rfl⟩
        | succ n =>
          simp only [List.get?] at hj
          exact hall n body' tidx' hj

theorem zip_get?_of {α β : Type} (l₁ : List α) (l₂ : List β) :
    ∀ i a b, l₁.get? i = some a → l₂.get? i = some b →
      (l₁.zip l₂).get? i = some (a, b) := by
  induction l₁ generalizing l₂ with
  | nil => intro i a b h1 _; simp at h1
  | cons x xs ih =>
    intro i a b h1 h2
    cases l₂ with
    | nil => simp at h2
    | cons y ys =>
      cases i with
      | zero =>
        simp only [List.get?] at h1 h2
        cases h1; cases h2
        rfl
      | succ n =>
        simp only [List.get?] at h1 h2 ⊢
        exact ih ys n a b h1 h2

theorem store_new_parts (m : Module) (st : Store) (h : Store.new m = .ok st) :
    ∃ ext intl mems mems2,
      buildImportFuncs m.type_section (m.import_section.getD []) = .ok ext ∧
      buildInternalFuncs m.type_section
        ((m.code_section.getD []).zip (m.function_section.getD [])) = .ok intl ∧
      allocMemories (m.memory_section.getD []) = .ok mems ∧
      applyDataSegments (m.data_section.getD []) mems = .ok mems2 ∧
      st = ⟨ext ++ intl, ⟨buildExports (m.export_section.getD []) []⟩, mems2⟩ := by
  simp only [Store.new, bind, Except.bind] at h
  split at h
  · cases h
  · rename_i ext h1
    split at h
    · cases h
    · rename_i intl h2
      split at h
      · cases h
      · rename_i mems h3
        split at h
        · cases h
        · rename_i mems2 h4
          cases h
          exact ⟨ext, intl, mems, mems2, h1, h2, h3, h4, rfl⟩

/-- C6: for a module whose instantiation succeeds and whose function section
lists exactly one type index per code-section body, `Store.funcs` is the
import-section `External` entries in import order (types resolved from each
import's type index) followed by one `Internal` entry per code body in
code-section order, with the locals flattened; every function index is a
position in this combined list.  (Without the equal-length hypothesis the
zip drops surplus code bodies — see the counterexample.) -/
theorem store_funcs_layout (m : Module) (st : Store)
    (hlen : (m.function_section.getD []).length = (m.code_section.getD []).length)
    (h : Store.new m = .ok st) :
    st.funcs.length
        = (m.import_section.getD []).length + (m.code_section.getD []).length
    ∧ (∀ i imp, (m.import_section.getD []).get? i = some imp →
        ∃ ft tidx, imp.desc = .Func tidx ∧ resolveType m.type_section tidx = .ok ft ∧
          st.funcs.get? i = some (.External ⟨imp.module, imp.field, ft⟩))
    ∧ (∀ j body tidx, (m.code_section.getD []).get? j = some body →
        (m.function_section.getD []).get? j = some tidx →
        ∃ ft, resolveType m.type_section tidx = .ok ft ∧
          st.funcs.get? ((m.import_section.getD []).length + j)
            = some (.Internal ⟨ft, ⟨flattenLocals body.locals, body.code⟩⟩)) := by
  obtain ⟨ext, intl, mems, mems2, h1, h2, h3, h4, hst⟩ := store_new_parts m st h
  obtain ⟨hel, hea⟩ := buildImportFuncs_sound _ _ _ h1
  obtain ⟨hil, hia⟩ := buildInternalFuncs_sound _ _ _ h2
  subst hst
  refine ⟨?_, ?_, ?_⟩
  · simp only [List.length_append, hel, hil, List.length_zip]
    omega
  · intro i imp hi
    obtain ⟨ft, tidx, ha, hb, hc⟩ := hea i imp hi
    refine ⟨ft, tidx, ha, hb, ?_⟩
    have hilen : i < ext.length := by
      rw [hel]
      exact List.get?_eq_some.mp hi |>.1
    rw [List.get?_append hilen]
    exact hc
  · intro j body tidx hj hfj
    have hz := zip_get?_of (m.code_section.getD []) (m.function_section.getD [])
      j body tidx hj hfj
    obtain ⟨ft, ha, hb⟩ := hia j body tidx hz
    refine ⟨ft, ha, ?_⟩
    rw [List.get?_append_right (by rw [hel]; omega)]
    rw [hel]
    simpa using hb

/-- Witness for C6: one imported plus one internal function; the funcs list
has length 1 + 1. -/
theorem store_funcs_layout_applied :
    Store.new layoutMod = .ok layoutStore
    ∧ layoutStore.funcs.length
        = (layoutMod.import_section.getD []).length
          + (layoutMod.code_section.getD []).length :=
  ⟨rfl, (store_funcs_layout layoutMod layoutStore (by decide) rfl).1⟩

theorem store_new_build (m : Module) (ext intl : List FuncInst)
    (mems mems2 : List MemoryInst)
    (h1 : buildImportFuncs m.type_section (m.import_section.getD []) = .ok ext)
    (h2 : buildInternalFuncs m.type_section
            ((m.code_section.getD []).zip (m.function_section.getD [])) = .ok intl)
    (h3 : allocMemories (m.memory_section.getD []) = .ok mems)
    (h4 : applyDataSegments (m.data_section.getD []) mems = .ok mems2) :
    Store.new m
      = .ok ⟨ext ++ intl, ⟨buildExports (m.export_section.getD []) []⟩, mems2⟩ := by
  simp [Store.new, bind, Except.bind, h1, h2, h3, h4]

theorem store_new_data_err (m : Module) (ext intl : List FuncInst)
    (mems : List MemoryInst) (e : RtErr)
    (h1 : buildImportFuncs m.type_section (m.import_section.getD []) = .ok ext)
    (h2 : buildInternalFuncs m.type_section
            ((m.code_section.getD []).zip (m.function_section.getD [])) = .ok intl)
    (h3 : allocMemories (m.memory_section.getD []) = .ok mems)
    (h4 : applyDataSegments (m.data_section.getD []) mems = .error e) :
    Store.new m = .error e := by
  simp [Store.new, bind, Except.bind, h1, h2, h3, h4]

theorem allocMemories_one (mm : Memory)
    (hfit : mm.limits.min * PAGE_SIZE < 4294967296) :
    allocMemories [mm]
      = .ok [⟨List.replicate (mm.limits.min * PAGE_SIZE) 0, mm.limits.max⟩] := by
  simp [allocMemories, hfit, bind, Except.bind]

theorem applyDataSegments_ok_of_inbounds (segs : List Data) :
    ∀ (d0 : List Nat) (mx : Option Nat),
      (∀ seg ∈ segs, seg.memory_index = 0) →
      (∀ seg ∈ segs, intToUsize seg.offset + seg.init.length ≤ d0.length) →
      ∃ d, applyDataSegments segs [⟨d0, mx⟩] = .ok [⟨d, mx⟩] ∧ d.length = d0.length := by
  induction segs with
  | nil => intro d0 mx _ _; exact ⟨d0, rfl, rfl⟩
  | cons seg rest ih =>
    intro d0 mx hidx hb
    have h0 : seg.memory_index = 0 := hidx seg (List.mem_cons_self seg rest)
    have hs : intToUsize seg.offset + seg.init.length ≤ d0.length :=
      hb seg (List.mem_cons_self seg rest)
    have hlen := written_length d0 seg.init (intToUsize seg.offset) hs
    obtain ⟨d, hap, hdl⟩ :=
      ih (d0.take (intToUsize seg.offset) ++ seg.init ++
            d0.drop (intToUsize seg.offset + seg.init.length)) mx
        (fun s hs' => hidx s (List.mem_cons_of_mem seg hs'))
        (fun s hs' => by rw [hlen]; exact hb s (List.mem_cons_of_mem seg hs'))
    refine ⟨d, ?_, by rw [hdl, hlen]⟩
    simp only [applyDataSegments, h0, List.get?, if_pos hs]
    simpa using hap

theorem applyDataSegments_err_of_oob (segs : List Data) :
    ∀ (d0 : List Nat) (mx : Option Nat),
      (∀ seg ∈ segs, seg.memory_index = 0) →
      (∃ seg ∈ segs, d0.length < intToUsize seg.offset + seg.init.length) →
      applyDataSegments segs [⟨d0, mx⟩]
        = .error (.err ("data is too large to fit in memory")) := by
  induction segs with
  | nil => intro d0 mx _ hoob; obtain ⟨seg, hs, _⟩ := hoob; simp at hs
  | cons seg rest ih =>
    intro d0 mx hidx hoob
    have h0 : seg.memory_index = 0 := hidx seg (List.mem_cons_self seg rest)
    by_cases hin : intToUsize seg.offset + seg.init.length ≤ d0.length
    · have hlen := written_length d0 seg.init (intToUsize seg.offset) hin
      obtain ⟨w, hw, hwb⟩ := hoob
      have hwrest : w ∈ rest := by
        rcases List.mem_cons.mp hw with heq | hmem
        · subst heq; omega
        · exact hmem
      simp only [applyDataSegments, h0, List.get?, if_pos hin]
      have := ih (d0.take (intToUsize seg.offset) ++ seg.init ++
            d0.drop (intToUsize seg.offset + seg.init.length)) mx
        (fun s hs' => hidx s (List.mem_cons_of_mem seg hs'))
        ⟨w, hwrest, by rw [hlen]; exact hwb⟩
      simpa using this
    · simp only [applyDataSegments, h0, List.get?, if_neg hin]

/-- C7: for a module with one memory `Limits { min }` whose `u32` product
`min * PAGE_SIZE` does not overflow, instantiation allocates exactly
`min * 65536` zero bytes; every data segment with
`offset + init.len() ≤ memory.len()` is copied in (single-segment content
shown in the last conjunct) and instantiation succeeds, while any
out-of-bounds segment makes `Store::new` fail with the "data too large"
error.  (`min = 65536` instead overflows the multiplication — see the
counterexample.) -/
theorem store_memory_init (m : Module) (mm : Memory) (segs : List Data)
    (ext intl : List FuncInst)
    (hmem : m.memory_section = some [mm])
    (hfit : mm.limits.min * PAGE_SIZE < 4294967296)
    (hdata : m.data_section = some segs)
    (hidx : ∀ seg ∈ segs, seg.memory_index = 0)
    (hext : buildImportFuncs m.type_section (m.import_section.getD []) = .ok ext)
    (hintl : buildInternalFuncs m.type_section
               ((m.code_section.getD []).zip (m.function_section.getD [])) = .ok intl) :
    allocMemories (m.memory_section.getD [])
        = .ok [⟨List.replicate (mm.limits.min * PAGE_SIZE) 0, mm.limits.max⟩]
    ∧ ((∀ seg ∈ segs, intToUsize seg.offset + seg.init.length
            ≤ mm.limits.min * PAGE_SIZE) →
        ∃ st d, Store.new m = .ok st ∧ st.memories = [⟨d, mm.limits.max⟩]
          ∧ d.length = mm.limits.min * PAGE_SIZE)
    ∧ ((∃ seg ∈ segs, mm.limits.min * PAGE_SIZE
            < intToUsize seg.offset + seg.init.length) →
        Store.new m = .error (.err ("data is too large to fit in memory")))
    ∧ (∀ seg, segs = [seg] →
        intToUsize seg.offset + seg.init.length ≤ mm.limits.min * PAGE_SIZE →
        ∃ st, Store.new m = .ok st ∧ st.memories =
          [⟨(List.replicate (mm.limits.min * PAGE_SIZE) 0).take (intToUsize seg.offset)
              ++ seg.init ++
              (List.replicate (mm.limits.min * PAGE_SIZE) 0).drop
                (intToUsize seg.offset + seg.init.length),
            mm.limits.max⟩]) := by
  have halloc : allocMemories (m.memory_section.getD [])
      = .ok [⟨List.replicate (mm.limits.min * PAGE_SIZE) 0, mm.limits.max⟩] := by
    rw [hmem]; exact allocMemories_one mm hfit
  refine ⟨halloc, ?_, ?_, ?_⟩
  · intro hb
    obtain ⟨d, hap, hdl⟩ :=
      applyDataSegments_ok_of_inbounds segs
        (List.replicate (mm.limits.min * PAGE_SIZE) 0) mm.limits.max hidx
        (by intro s hs; rw [List.length_replicate]; exact hb s hs)
    refine ⟨⟨ext ++ intl, ⟨buildExports (m.export_section.getD []) []⟩, [⟨d, mm.limits.max⟩]⟩,
      d, ?_, rfl, by rw [hdl, List.length_replicate]⟩
    exact store_new_build m ext intl _ _ hext hintl halloc (by rw [hdata]; exact hap)
  · intro hoob
    apply store_new_data_err m ext intl _ _ hext hintl halloc
    rw [hdata]
    exact applyDataSegments_err_of_oob segs _ mm.limits.max hidx
      (by obtain ⟨s, hs, hsb⟩ := hoob
          exact ⟨s, hs, by rw [List.length_replicate]; exact hsb⟩)
  · intro seg hseg hin
    subst hseg
    have h0 : seg.memory_index = 0 := hidx seg (List.mem_cons_self seg [])
    have hap : applyDataSegments [seg]
        [⟨List.replicate (mm.limits.min * PAGE_SIZE) 0, mm.limits.max⟩]
        = .ok [⟨(List.replicate (mm.limits.min * PAGE_SIZE) 0).take (intToUsize seg.offset)
            ++ seg.init ++
            (List.replicate (mm.limits.min * PAGE_SIZE) 0).drop
              (intToUsize seg.offset + seg.init.length),
          mm.limits.max⟩] := by
      simp only [applyDataSegments, h0, List.get?]
      rw [if_pos (by rw [List.length_replicate]; exact hin)]
      rfl
    exact ⟨_, store_new_build m ext intl _ _ hext hintl halloc (by rw [hdata]; exact hap), rfl⟩

/-- Witness for C7: the one-page module with a five-byte segment at offset 3
allocates `1 * PAGE_SIZE` zero bytes. -/
theorem store_memory_init_applied :
    allocMemories (memMod.memory_section.getD [])
      = .ok [⟨List.replicate (1 * PAGE_SIZE) 0, none⟩] :=
  (store_memory_init memMod ⟨⟨1, none⟩⟩ [⟨0, 3, [104, 101, 108, 108, 111]⟩] [] []
    rfl (by decide) rfl (by decide) rfl rfl).1

theorem stack_unwind_length (stack out : List Value) (sp arity : Nat)
    (h : stack_unwind stack sp arity = .ok out) :
    out.length = sp + (if arity = 0 then 0 else 1) := by
  unfold stack_unwind at h
  split at h
  · rename_i ha
    split at h
    · cases h
    · split at h
      · rename_i hsp
        cases h
        rw [if_neg (by omega)]
        simp only [List.length_cons, List.length_drop]
        omega
      · cases h
  · rename_i ha
    split at h
    · rename_i hsp
      cases h
      rw [if_pos (by omega)]
      simp only [List.length_drop]
      omega
    · cases h

theorem importDispatch_callstack (r : Runtime) (f : ExternalFuncInst)
    (args : List Value) (res : Option Value) (r' : Runtime)
    (h : r.importDispatch f args = .ok (res, r')) : r'.call_stack = r.call_stack := by
  unfold Runtime.importDispatch at h
  split at h
  · cases h
  · split at h
    · cases h
    · split at h
      · cases h
      · cases h
        rfl

theorem invoke_external_callstack (r : Runtime) (f : ExternalFuncInst)
    (res : Option Value) (r' : Runtime)
    (h : r.invoke_external f = .ok (res, r')) : r'.call_stack = r.call_stack := by
  simp only [Runtime.invoke_external] at h
  split at h
  · split at h
    · split at h
      · split at h
        · cases h
        · cases h
          rfl
      · have := importDispatch_callstack _ _ _ _ _ h
        simpa using this
    · have := importDispatch_callstack _ _ _ _ _ h
      simpa using this
  · cases h

theorem push_frame_callstack (r : Runtime) (f : InternalFuncInst) (r' : Runtime)
    (h : r.push_frame f = .ok r') : ∃ nf, r'.call_stack = nf :: r.call_stack := by
  simp only [Runtime.push_frame] at h
  split at h
  · cases h
    exact ⟨_, rfl⟩
  · cases h

theorem execInst_shape (r : Runtime) (fr : Frame) (rest : List Frame)
    (inst : Instruction) (r' : Runtime)
    (h : r.execInst fr rest inst = .ok (.next r')) :
    (∃ pre fr', r'.call_stack = pre ++ fr' :: rest
        ∧ fr'.sp = fr.sp ∧ fr'.arity = fr.arity)
    ∨ (r'.call_stack = rest
        ∧ r'.stack.length = fr.sp + (if fr.arity = 0 then 0 else 1)) := by
  cases inst with
  | If block =>
    simp only [Runtime.execInst] at h
    split at h
    · cases h
    · split at h
      · cases h
      · cases h
        exact Or.inl ⟨[], _, rfl, rfl, rfl⟩
  | End =>
    simp only [Runtime.execInst] at h
    split at h
    · split at h
      · cases h
      · cases h
        exact Or.inl ⟨[], _, rfl, rfl, rfl⟩
    · split at h
      · cases h
      · rename_i hunw
        cases h
        exact Or.inr ⟨rfl, stack_unwind_length _ _ _ _ hunw⟩
  | Return =>
    simp only [Runtime.execInst] at h
    split at h
    · cases h
    · rename_i hunw
      cases h
      exact Or.inr ⟨rfl, stack_unwind_length _ _ _ _ hunw⟩
  | LocalGet idx =>
    simp only [Runtime.execInst] at h
    split at h
    · cases h
    · cases h
      exact Or.inl ⟨[], _, rfl, rfl, rfl⟩
  | LocalSet idx =>
    simp only [Runtime.execInst] at h
    split at h
    · cases h
    · split at h
      · cases h
        exact Or.inl ⟨[], _, rfl, rfl, rfl⟩
      · cases h
  | I32Store align offset =>
    simp only [Runtime.execInst] at h
    split at h
    · split at h
      · cases h
      · split at h
        · cases h
        · split at h
          · cases h
          · split at h
            · cases h
            · cases h
              exact Or.inl ⟨[], _, rfl, rfl, rfl⟩
    · cases h
  | I32Const v =>
    simp only [Runtime.execInst] at h
    cases h
    exact Or.inl ⟨[], _, rfl, rfl, rfl⟩
  | I32Add =>
    simp only [Runtime.execInst] at h
    split at h
    · split at h
      · cases h
      · cases h
        exact Or.inl ⟨[], _, rfl, rfl, rfl⟩
    · cases h
  | I32Sub =>
    simp only [Runtime.execInst] at h
    split at h
    · split at h
      · cases h
      · cases h
        exact Or.inl ⟨[], _, rfl, rfl, rfl⟩
    · cases h
  | I32Lts =>
    simp only [Runtime.execInst] at h
    split at h
    · split at h
      · cases h
      · cases h
        exact Or.inl ⟨[], _, rfl, rfl, rfl⟩
    · cases h
  | Call idx =>
    simp only [Runtime.execInst] at h
    split at h
    · cases h
    · split at h
      · cases h
      · rename_i r₁ hpf
        cases h
        obtain ⟨nf, hnf⟩ := push_frame_callstack _ _ _ hpf
        exact Or.inl ⟨[nf], fr, by rw [hnf]; rfl, rfl, rfl⟩
    · split at h
      · cases h
      · rename_i r₁ hext
        cases h
        have hc := invoke_external_callstack _ _ _ _ hext
        exact Or.inl ⟨[], fr, by simpa using hc, rfl, rfl⟩
      · rename_i v r₁ hext
        cases h
        have hc := invoke_external_callstack _ _ _ _ hext
        exact Or.inl ⟨[], fr, by simpa using hc, rfl, rfl⟩

theorem execInst_no_stop (r : Runtime) (fr : Frame) (rest : List Frame)
    (inst : Instruction) (r' : Runtime)
    (h : r.execInst fr rest inst = .ok (.stop r')) : False := by
  cases inst <;> simp only [Runtime.execInst] at h <;>
    (repeat' split at h) <;> cases h

theorem executeStep_stop_callstack (r r' : Runtime)
    (h : Runtime.executeStep r = .ok (.stop r')) :
    r'.call_stack.length = r.call_stack.length := by
  obtain ⟨st, sk, cs, M, wz⟩ := r
  cases cs with
  | nil =>
    simp only [Runtime.executeStep] at h
    cases h
    rfl
  | cons frame rest =>
    simp only [Runtime.executeStep] at h
    split at h
    · cases h
      rfl
    · exact absurd h (fun hh => execInst_no_stop _ _ _ _ _ hh)

theorem executeStep_err_nonempty (r : Runtime) (e : RtErr)
    (h : Runtime.executeStep r = .error e) : r.call_stack ≠ [] := by
  intro hc
  obtain ⟨st, sk, cs, M, wz⟩ := r
  simp only at hc
  subst hc
  simp only [Runtime.executeStep] at h
  cases h

theorem executeStep_of_empty (r : Runtime) (h : r.call_stack = []) :
    Runtime.executeStep r = .ok (.stop r) := by
  obtain ⟨st, sk, cs, M, wz⟩ := r
  simp only at h
  subst h
  rfl

theorem executeLoop_empty (fuel : Nat) (r : Runtime)
    (hc : r.call_stack = []) (p : Except RtErr Unit × Runtime)
    (h : Runtime.executeLoop fuel r = some p) : p = (.ok (), r) := by
  cases fuel with
  | zero => simp [Runtime.executeLoop] at h
  | succ n =>
    simp only [Runtime.executeLoop, executeStep_of_empty r hc] at h
    exact (Option.some.inj h).symm

theorem executeLoop_err_step (fuel : Nat) :
    ∀ (r : Runtime) (e : RtErr) (r₃ : Runtime),
      Runtime.executeLoop fuel r = some (.error e, r₃) →
      Runtime.executeStep r₃ = .error e := by
  induction fuel with
  | zero => intro r e r₃ h; simp [Runtime.executeLoop] at h
  | succ n ih =>
    intro r e r₃ h
    simp only [Runtime.executeLoop] at h
    split at h
    · rename_i e' heq
      obtain ⟨h1, h2⟩ := Prod.mk.injEq _ _ _ _ ▸ Option.some.inj h
      cases h1
      rw [← h2]
      exact heq
    · rename_i r₁ heq
      simp at h
    · exact ih _ _ _ h

theorem executeStep_next_shape (r r' : Runtime) (frame : Frame) (rest : List Frame)
    (hcs : r.call_stack = frame :: rest)
    (h : Runtime.executeStep r = .ok (.next r')) :
    (∃ pre fr', r'.call_stack = pre ++ fr' :: rest
        ∧ fr'.sp = frame.sp ∧ fr'.arity = frame.arity)
    ∨ (r'.call_stack = rest
        ∧ r'.stack.length = frame.sp + (if frame.arity = 0 then 0 else 1)) := by
  obtain ⟨st, sk, cs, M, wz⟩ := r
  simp only at hcs
  subst hcs
  simp only [Runtime.executeStep] at h
  split at h
  · cases h
  · have hres := execInst_shape _ _ _ _ _ h
    simpa using hres

theorem executeLoop_bottom (fuel : Nat) :
    ∀ (r r' : Runtime) (s a : Nat),
      (∃ l f, r.call_stack = l ++ [f] ∧ f.sp = s ∧ f.arity = a) →
      Runtime.executeLoop fuel r = some (.ok (), r') →
      r'.call_stack = [] →
      r'.stack.length = s + (if a = 0 then 0 else 1) := by
  induction fuel with
  | zero => intro r r' s a _ h _; simp [Runtime.executeLoop] at h
  | succ n ih =>
    intro r r' s a hb hl hcs
    obtain ⟨l, f, hbcs, hsp, har⟩ := hb
    simp only [Runtime.executeLoop] at hl
    split at hl
    · simp at hl
    · rename_i r₁ heq
      obtain ⟨h1, h2⟩ := Prod.mk.injEq _ _ _ _ ▸ Option.some.inj hl
      cases h2
      have hlen := executeStep_stop_callstack _ _ heq
      rw [hcs, hbcs] at hlen
      simp at hlen
    · rename_i r₁ heq
      cases l with
      | nil =>
        simp only [List.nil_append] at hbcs
        rcases executeStep_next_shape r r₁ f [] hbcs heq with
          ⟨pre, fr', hc, hsp', har'⟩ | ⟨hc, hlen⟩
        · exact ih r₁ r' s a
            ⟨pre, fr', by rw [hc], by rw [hsp', hsp], by rw [har', har]⟩ hl hcs
        · have hp := executeLoop_empty n r₁ hc _ hl
          obtain ⟨hp1, hp2⟩ := Prod.mk.injEq _ _ _ _ ▸ hp
          cases hp2
          rw [hlen, hsp, har]
      | cons x l' =>
        simp only [List.cons_append] at hbcs
        rcases executeStep_next_shape r r₁ x (l' ++ [f]) hbcs heq with
          ⟨pre, fr', hc, _, _⟩ | ⟨hc, _⟩
        · exact ih r₁ r' s a
            ⟨pre ++ fr' :: l', f, by rw [hc]; simp, hsp, har⟩ hl hcs
        · exact ih r₁ r' s a ⟨l', f, hc, hsp, har⟩ hl hcs

theorem push_frame_ok_of_args (r : Runtime) (f : InternalFuncInst) (args : List Value)
    (hstack : r.stack = args.reverse)
    (hargs : args.length = f.func_type.params.length) :
    r.push_frame f = .ok { r with
      stack := [],
      call_stack :=
        ⟨-1, 0, f.code.body, f.func_type.results.length, [],
         args ++ f.code.locals.map zeroLocal⟩ :: r.call_stack } := by
  have hlen : f.func_type.params.length ≤ r.stack.length := by
    rw [hstack, List.length_reverse]
    omega
  have htake : r.stack.take f.func_type.params.length = args.reverse := by
    rw [hstack, ← hargs, ← List.length_reverse, List.take_length]
  have hdrop : r.stack.drop f.func_type.params.length = [] := by
    rw [hstack, ← hargs, ← List.length_reverse, List.drop_length]
  simp only [Runtime.push_frame, if_pos hlen, htake, hdrop, List.reverse_reverse,
    List.length_nil]

/-- C8 (amended): for an exported internal function called with as many
arguments as parameters, whenever `call` returns with an empty call stack —
always the case on the cleanup error path, and exactly when the body's
execution popped its final frame — the operand stack is empty as well. -/
theorem call_empties_stacks (fuel : Nat) (r : Runtime) (name : String)
    (args : List Value) (ex : ExportInst) (idx : Nat) (f : InternalFuncInst)
    (res : Except RtErr (Option Value)) (r' : Runtime)
    (hstack : r.stack = []) (hcs : r.call_stack = [])
    (hex : (r.store.module.exports.find? (fun p => p.1 = name)).map Prod.snd = some ex)
    (hdesc : ex.desc = .Func idx)
    (hfn : r.store.funcs.get? idx = some (.Internal f))
    (hargs : args.length = f.func_type.params.length)
    (hcall : Runtime.call fuel r name args = some (res, r'))
    (hfin : r'.call_stack = []) :
    r'.stack = [] := by
  simp only [Runtime.call, hex, hdesc, hfn] at hcall
  simp only [Runtime.invoke_internal, hcs] at hcall
  have hpf := push_frame_ok_of_args ⟨r.store, args.reverse ++ r.stack, [], r.imports, r.wasi⟩
    f args (by simp [hstack]) hargs
  simp only [hpf] at hcall
  have hb : ∃ l g,
      (⟨r.store, [],
        [⟨-1, 0, f.code.body, f.func_type.results.length, [],
          args ++ f.code.locals.map zeroLocal⟩], r.imports, r.wasi⟩ : Runtime).call_stack
          = l ++ [g]
        ∧ g.sp = 0 ∧ g.arity = f.func_type.results.length :=
    ⟨[], _, rfl, rfl, rfl⟩
  split at hcall
  · cases hcall
  · rename_i m r₃ heq
    obtain ⟨h1, h2⟩ := Prod.mk.injEq _ _ _ _ ▸ Option.some.inj hcall
    cases h2
    have hstep := executeLoop_err_step fuel _ _ _ heq
    exact absurd hfin (executeStep_err_nonempty _ _ hstep)
  · rename_i m r₃ heq
    obtain ⟨h1, h2⟩ := Prod.mk.injEq _ _ _ _ ▸ Option.some.inj hcall
    cases h2
    rfl
  · rename_i u r₃ heq
    split at hcall
    · rename_i harity
      obtain ⟨h1, h2⟩ := Prod.mk.injEq _ _ _ _ ▸ Option.some.inj hcall
      cases h2
      have hlen := executeLoop_bottom fuel _ _ _ _ hb heq hfin
      rw [harity] at hlen
      simp at hlen
      exact hlen
    · rename_i harity
      split at hcall
      · rename_i hstk
        obtain ⟨h1, h2⟩ := Prod.mk.injEq _ _ _ _ ▸ Option.some.inj hcall
        cases h2
        have hlen := executeLoop_bottom fuel _ _ _ _ hb heq hfin
        rw [if_neg harity, hstk] at hlen
        simp at hlen
      · rename_i v stk hstk
        obtain ⟨h1, h2⟩ := Prod.mk.injEq _ _ _ _ ▸ Option.some.inj hcall
        cases h2
        have hfin3 : r₃.call_stack = [] := by simpa using hfin
        have hlen := executeLoop_bottom fuel _ _ _ _ hb heq hfin3
        rw [if_neg harity, hstk] at hlen
        simp only [List.length_cons] at hlen
        have : stk.length = 0 := by omega
        simpa using List.length_eq_zero.mp this

/-- Witness for C8: a well-typed `add` call returns `Ok(Some(I32(5)))` with
both stacks empty. -/
theorem call_empties_stacks_applied :
    Runtime.call 30 addRt2 "add" [.I32 2, .I32 3] = some (.ok (some (.I32 5)), addRt2Done)
    ∧ addRt2Done.stack = [] :=
  ⟨rfl,
   call_empties_stacks 30 addRt2 "add" [.I32 2, .I32 3] ⟨"add", .Func 0⟩ 0 addFunc2
     (.ok (some (.I32 5))) addRt2Done rfl rfl rfl rfl rfl rfl rfl rfl⟩

end TinyWasm
